import Mathlib

/-!
Verification of the cordon-and-drain orchestrator of mcp-kubernetes-server.

The Go source (package tools: K8sCordon, K8sUncordon, K8sDrain,
evictWithRetry, waitPodDeleted and the helpers isCompletedPod, isOwnedBy,
hasLocalData, isMirrorPod) is shallowly embedded below.  Remote calls
(cordon patch, pod listing, per-pod eviction and deletion outcomes) are
modelled as explicit oracle parameters; durations are in milliseconds;
the retry loop is modelled with explicit fuel, a time counter and an
event trace recording every eviction request and every backoff sleep.
-/

namespace K8s

/-! Data model: the fields of Node / Pod objects that the drain code reads. -/

inductive PodPhase
  | pending
  | running
  | succeeded
  | failed
  | unknown
  deriving DecidableEq

structure OwnerReference where
  kind : String
  deriving DecidableEq

/-- One entry of pod.Spec.Volumes; the code only tests whether the
EmptyDir or HostPath pointer is non-nil. -/
structure Volume where
  emptyDir : Bool
  hostPath : Bool
  deriving DecidableEq

structure Pod where
  ns : String
  name : String
  phase : PodPhase
  ownerReferences : List OwnerReference
  volumes : List Volume
  annotations : List (String × String)
  deriving DecidableEq

/-! Helper predicates, from the bottom of the drain source file. -/

/-- isCompletedPod: phase is Succeeded or Failed. -/
def isCompletedPod (pod : Pod) : Bool :=
  pod.phase == .succeeded || pod.phase == .failed

/-- isOwnedBy: some owner reference has the given kind. -/
def isOwnedBy (pod : Pod) (kind : String) : Bool :=
  pod.ownerReferences.any (fun o => o.kind == kind)

/-- hasLocalData: some volume is an emptyDir or hostPath volume. -/
def hasLocalData (pod : Pod) : Bool :=
  pod.volumes.any (fun v => v.emptyDir || v.hostPath)

/-- isMirrorPod: the mirror-pod annotation key is present. -/
def isMirrorPod (pod : Pod) : Bool :=
  pod.annotations.any (fun kv => kv.1 == "kubernetes.io/config.mirror")

/-! The drain request configuration, after argument decoding
(boolFromArgs / intFromArgsDefault defaults from K8sDrain). -/

structure DrainArgs where
  nodeName : String
  ignoreDaemonsets : Bool := false
  deleteLocalData : Bool := false
  force : Bool := false
  gracePtr : Option Int := none
  timeoutSeconds : Int := 600
  retryBackoffMS : Int := 1000
  maxBackoffMS : Int := 10000

/-- The podResult record appended to results for each processed pod.
The Go field Error is a string whose empty value is omitted from JSON. -/
structure PodResult where
  ns : String
  name : String
  action : String
  error : String := ""
  deriving DecidableEq

/-- Oracle for the remote outcomes of per-pod processing: the value
returned by evictWithRetry for a pod (none = nil error) and the value
returned by the direct Pods.Delete fallback call. -/
structure DrainEnv where
  evictErr : Pod → Option String
  deleteErr : Pod → Option String

/-- The eviction stage of the per-pod loop in K8sDrain: runs after all
skip rules have passed.  On eviction failure with force=true a direct
delete is attempted; both error strings are preserved on double failure. -/
def evictPhase (a : DrainArgs) (env : DrainEnv) (pod : Pod) : PodResult :=
  match env.evictErr pod with
  | none => { ns := pod.ns, name := pod.name, action := "evicted" }
  | some e =>
    if a.force then
      match env.deleteErr pod with
      | some derr =>
        { ns := pod.ns, name := pod.name, action := "evict_failed_delete_failed",
          error := "evict: " ++ e ++ "; delete: " ++ derr }
      | none => { ns := pod.ns, name := pod.name, action := "force_deleted" }
    else
      { ns := pod.ns, name := pod.name, action := "evict_failed", error := e }

/-- One iteration of the pod loop in K8sDrain: none means the pod was
skipped silently (completed pod, no outcome entry); otherwise exactly one
podResult is produced. -/
def processPod (a : DrainArgs) (env : DrainEnv) (pod : Pod) : Option PodResult :=
  if isCompletedPod pod then none
  else if isMirrorPod pod then
    some { ns := pod.ns, name := pod.name, action := "skipped (mirror/static pod)" }
  else if a.ignoreDaemonsets && isOwnedBy pod "DaemonSet" then
    some { ns := pod.ns, name := pod.name, action := "skipped (daemonset)" }
  else if !a.deleteLocalData && hasLocalData pod && !a.force then
    some { ns := pod.ns, name := pod.name,
           action := "skipped (local data; set delete_local_data=true or force=true)" }
  else
    some (evictPhase a env pod)

/-- The full results slice built by the pod loop over the listed pods. -/
def drainResults (a : DrainArgs) (env : DrainEnv) (pods : List Pod) : List PodResult :=
  pods.filterMap (processPod a env)

/-! JSON values, for the patch bodies and the summary record the tools
marshal.  Object fields are kept in the order the Go source writes them. -/

inductive Json
  | jnull
  | jbool (b : Bool)
  | jnum (n : Int)
  | jstr (s : String)
  | jarr (elems : List Json)
  | jobj (fields : List (String × Json))

/-- Field names of a JSON object (empty for non-objects). -/
def objKeys : Json → List String
  | .jobj fields => fields.map (fun f => f.1)
  | _ => []

/-- Field lookup in a JSON object. -/
def lookupField (j : Json) (key : String) : Option Json :=
  match j with
  | .jobj fields => (fields.find? (fun f => f.1 == key)).map (fun f => f.2)
  | _ => none

/-- The strategic-merge patch body K8sCordon marshals and sends. -/
def cordonPatch : Json :=
  .jobj [("spec", .jobj [("unschedulable", .jbool true)])]

/-- K8sCordon: requires node_name, then patches spec.unschedulable=true on
the node.  patchErr models the response of the Nodes Patch call; on
success the patch that was sent is returned. -/
def K8sCordon (nodeName : String) (patchErr : Option String) : Except String Json :=
  if nodeName == "" then .error "node_name is required"
  else
    match patchErr with
    | some e => .error ("Error cordoning node " ++ nodeName ++ ": " ++ e)
    | none => .ok cordonPatch

/-- JSON encoding of the podResult struct: tags namespace, name, action,
and error with omitempty. -/
def podResultJson (r : PodResult) : Json :=
  .jobj ([("namespace", .jstr r.ns), ("name", .jstr r.name), ("action", .jstr r.action)]
    ++ (if r.error == "" then [] else [("error", .jstr r.error)]))

/-- JSON encoding of the gracePtr field (nil pointer encodes as null). -/
def graceJson : Option Int → Json
  | none => .jnull
  | some g => .jnum g

/-- The summary map K8sDrain marshals at the end, with the fields in the
order of the Go map literal. -/
def drainSummaryJson (a : DrainArgs) (results : List PodResult) : Json :=
  .jobj [("node", .jstr a.nodeName),
         ("status", .jstr "drain_attempted"),
         ("ignore_daemonsets", .jbool a.ignoreDaemonsets),
         ("delete_local_data", .jbool a.deleteLocalData),
         ("force", .jbool a.force),
         ("grace_period", graceJson a.gracePtr),
         ("timeout_seconds", .jnum a.timeoutSeconds),
         ("retry_backoff_ms", .jnum a.retryBackoffMS),
         ("max_backoff_ms", .jnum a.maxBackoffMS),
         ("results", .jarr (results.map podResultJson))]

/-- K8sDrain: validates node_name, cordons the node (a cordon error is
returned as the whole result), lists the pods on the node (a listing
error is returned as the whole result), then processes every listed pod
and returns the summary.  cordonErr models the cordon patch response and
listResult the pod listing response. -/
def K8sDrain (a : DrainArgs) (cordonErr : Option String)
    (listResult : Except String (List Pod)) (env : DrainEnv) : Except String Json :=
  if a.nodeName == "" then .error "node_name is required"
  else
    match K8sCordon a.nodeName cordonErr with
    | .error e => .error e
    | .ok _ =>
      match listResult with
      | .error e => .error ("Error listing pods on node " ++ a.nodeName ++ ": " ++ e)
      | .ok pods => .ok (drainSummaryJson a (drainResults a env pods))

/-! The eviction retry engine (evictWithRetry).  Each attempt submits one
Eviction request; the response is classified as in the apierrors tests of
the source.  accepted carries whether waitPodDeleted subsequently saw the
pod disappear before the context deadline.  Time is a millisecond counter
that advances by the backoff on each sleep; the context deadline fires
once the counter reaches deadline.  fuel bounds the recursion; a trace of
events (every request issued and every sleep started) is returned with
the result. -/

inductive EvictResponse
  | accepted (podGone : Bool)
  | notFound
  | tooManyRequests
  | conflictErr
  | serverTimeoutErr
  | timeoutErr
  | otherErr (msg : String)
  deriving DecidableEq

inductive EvictResult
  | ok
  | ctxErr
  | fatal (msg : String)
  deriving DecidableEq

inductive TraceEvent
  | attempt (t : Nat)
  | sleep (t : Nat) (dur : Nat)
  deriving DecidableEq

/-- The backoff update of the retry loop: double, then clamp to maxB. -/
def capBackoff (maxB b : Nat) : Nat :=
  if b > maxB then maxB else b

/-- The retry loop body of evictWithRetry.  At the top of each iteration
the context error is checked (deadline ≤ t) before any request is made.
A transient response (429 TooManyRequests, Conflict, ServerTimeout,
Timeout - the two retry branches of the source behave identically) sleeps
for the current backoff, cancellably: if the deadline falls inside the
sleep the loop returns the context error. -/
def evictLoop (resp : Nat → EvictResponse) (deadline maxB : Nat) :
    Nat → Nat → Nat → Nat → Option (EvictResult × List TraceEvent)
  | 0, _, _, _ => none
  | fuel + 1, t, n, backoff =>
    if deadline ≤ t then some (.ctxErr, [])
    else
      match resp n with
      | .accepted podGone => some ((if podGone then .ok else .ctxErr), [.attempt t])
      | .notFound => some (.ok, [.attempt t])
      | .otherErr m => some (.fatal m, [.attempt t])
      | _ =>
        if deadline ≤ t + backoff then some (.ctxErr, [.attempt t, .sleep t backoff])
        else
          match evictLoop resp deadline maxB fuel (t + backoff) (n + 1)
              (capBackoff maxB (backoff * 2)) with
          | none => none
          | some (res, tr) => some (res, .attempt t :: .sleep t backoff :: tr)

/-- Entry clamping of evictWithRetry: a non-positive initial backoff
becomes time.Second (1000 ms). -/
def effInitial (b : Int) : Int :=
  if b ≤ 0 then 1000 else b

/-- Entry clamping of evictWithRetry: a non-positive maximum backoff
becomes 10 * time.Second (10000 ms). -/
def effMax (m : Int) : Int :=
  if m ≤ 0 then 10000 else m

/-- evictWithRetry: clamps the two backoff parameters, then runs the
retry loop from time 0 with attempt index 0. -/
def evictWithRetry (resp : Nat → EvictResponse) (deadline : Nat)
    (initialBackoff maxBackoff : Int) (fuel : Nat) :
    Option (EvictResult × List TraceEvent) :=
  evictLoop resp deadline (effMax maxBackoff).toNat fuel 0 0 (effInitial initialBackoff).toNat

/-- Durations of the sleep events of a trace, in order. -/
def sleepDurations : List TraceEvent → List Nat
  | [] => []
  | .sleep _ d :: rest => d :: sleepDurations rest
  | .attempt _ :: rest => sleepDurations rest

/-- Sleep durations of a finished run (empty when the fuel ran out). -/
def runSleeps : Option (EvictResult × List TraceEvent) → List Nat
  | none => []
  | some (_, tr) => sleepDurations tr

/-- The ideal backoff sequence: the duration of sleep number i when the
loop starts with backoff b0, every attempt is answered with a retryable
response and the deadline never intervenes. -/
def sleepSeq (maxB b0 : Nat) : Nat → Nat
  | 0 => b0
  | n + 1 => capBackoff maxB (sleepSeq maxB b0 n * 2)

/-! Concrete fixtures used to instantiate the theorems below. -/

def mirrorPod : Pod :=
  { ns := "kube-system", name := "etcd-n1", phase := .running,
    ownerReferences := [], volumes := [],
    annotations := [("kubernetes.io/config.mirror", "abc")] }

def succeededPod : Pod :=
  { ns := "default", name := "job-1", phase := .succeeded,
    ownerReferences := [], volumes := [], annotations := [] }

def ordinaryPod : Pod :=
  { ns := "default", name := "web-1", phase := .running,
    ownerReferences := [], volumes := [], annotations := [] }

def localPod : Pod :=
  { ns := "default", name := "cache-1", phase := .running,
    ownerReferences := [], volumes := [{ emptyDir := true, hostPath := false }],
    annotations := [] }

def noopEnv : DrainEnv :=
  { evictErr := fun _ => none, deleteErr := fun _ => none }

def defaultArgs : DrainArgs :=
  { nodeName := "n1" }

def forceArgs : DrainArgs :=
  { nodeName := "n1", force := true }

/-- Response oracle: congestion on the first two attempts, then a fatal error. -/
def resp429twice (n : Nat) : EvictResponse :=
  if n < 2 then .tooManyRequests else .otherErr "cannot evict pod"

/-- Response oracle: congestion on every attempt. -/
def respTMR (_ : Nat) : EvictResponse :=
  .tooManyRequests

/-! Theorems. -/

/-- C1: the per-pod classifier of K8sDrain evaluates its rules in the
fixed source order with first match winning: a terminal-phase pod is
excluded with no outcome entry; then a mirror-pod annotation yields the
mirror skip; then ignore_daemonsets=true with a DaemonSet owner yields
the daemonset skip; then a node-local volume with delete_local_data=false
and force=false yields the local-data skip; otherwise the pod is handed
to the eviction stage.  In particular a local-data pod with either
delete_local_data or force set true goes to the eviction stage. -/
theorem classifier_rule_order (a : DrainArgs) (env : DrainEnv) (pod : Pod) :
    (isCompletedPod pod = true → processPod a env pod = none)
    ∧ (isCompletedPod pod = false → isMirrorPod pod = true →
        processPod a env pod
          = some { ns := pod.ns, name := pod.name,
                   action := "skipped (mirror/static pod)" })
    ∧ (isCompletedPod pod = false → isMirrorPod pod = false →
        a.ignoreDaemonsets = true → isOwnedBy pod "DaemonSet" = true →
        processPod a env pod
          = some { ns := pod.ns, name := pod.name, action := "skipped (daemonset)" })
    ∧ (isCompletedPod pod = false → isMirrorPod pod = false →
        (a.ignoreDaemonsets && isOwnedBy pod "DaemonSet") = false →
        hasLocalData pod = true → a.deleteLocalData = false → a.force = false →
        processPod a env pod
          = some { ns := pod.ns, name := pod.name,
                   action := "skipped (local data; set delete_local_data=true or force=true)" })
    ∧ (isCompletedPod pod = false → isMirrorPod pod = false →
        (a.ignoreDaemonsets && isOwnedBy pod "DaemonSet") = false →
        (!a.deleteLocalData && hasLocalData pod && !a.force) = false →
        processPod a env pod = some (evictPhase a env pod))
    ∧ (isCompletedPod pod = false → isMirrorPod pod = false →
        (a.ignoreDaemonsets && isOwnedBy pod "DaemonSet") = false →
        hasLocalData pod = true → (a.deleteLocalData = true ∨ a.force = true) →
        processPod a env pod = some (evictPhase a env pod)) := by
  refine ⟨?_, ?_, ?_, ?_, ?_, ?_⟩
  · intro hc
    simp [processPod, hc]
  · intro hc hm
    simp [processPod, hc, hm]
  · intro hc hm hig hds
    simp [processPod, hc, hm, hig, hds]
  · intro hc hm hds hl hdl hf
    simp [processPod, hc, hm, hds, hl, hdl, hf]
  · intro hc hm hds hl
    simp [processPod, hc, hm, hds, hl]
  · intro hc hm hds hl hor
    rcases hor with hdl | hf
    · simp [processPod, hc, hm, hds, hl, hdl]
    · simp [processPod, hc, hm, hds, hl, hf]

theorem classifier_rule_order_witness :
    processPod forceArgs noopEnv localPod = some (evictPhase forceArgs noopEnv localPod) :=
  (classifier_rule_order forceArgs noopEnv localPod).2.2.2.2.2
    (by decide) (by decide) (by decide) (by decide) (Or.inr (by decide))

/-- C2 (amended): every outcome entry action produced by the per-pod loop
is one of the seven strings actually written by the source:
"skipped (mirror/static pod)", "skipped (daemonset)",
"skipped (local data; set delete_local_data=true or force=true)",
"evicted", "force_deleted", "evict_failed", "evict_failed_delete_failed". -/
theorem podResult_action_enum (a : DrainArgs) (env : DrainEnv) (pod : Pod) (r : PodResult)
    (h : processPod a env pod = some r) :
    r.action ∈ ["skipped (mirror/static pod)", "skipped (daemonset)",
      "skipped (local data; set delete_local_data=true or force=true)",
      "evicted", "force_deleted", "evict_failed", "evict_failed_delete_failed"] := by
  unfold processPod at h
  split at h
  · exact absurd h (by simp)
  · split at h
    · obtain rfl := (Option.some.inj h).symm
      simp
    · split at h
      · obtain rfl := (Option.some.inj h).symm
        simp
      · split at h
        · obtain rfl := (Option.some.inj h).symm
          simp
        · obtain rfl := (Option.some.inj h).symm
          unfold evictPhase
          split
          · simp
          · split
            · split
              · simp
              · simp
            · simp

theorem podResult_action_enum_witness :
    ({ ns := "kube-system", name := "etcd-n1",
       action := "skipped (mirror/static pod)", error := "" } : PodResult).action
      ∈ ["skipped (mirror/static pod)", "skipped (daemonset)",
         "skipped (local data; set delete_local_data=true or force=true)",
         "evicted", "force_deleted", "evict_failed", "evict_failed_delete_failed"] :=
  podResult_action_enum defaultArgs noopEnv mirrorPod _ (by rfl)

/-- C2 (counterexample): a mirror pod is processed with action
"skipped (mirror/static pod)", which is none of the seven strings the
claim lists, so the claimed action vocabulary does not match the code. -/
theorem podResult_action_spec_counterexample :
    (processPod defaultArgs noopEnv mirrorPod).map (fun r => r.action)
      = some "skipped (mirror/static pod)"
    ∧ "skipped (mirror/static pod)" ∉ ["skipped_mirror", "skipped_daemonset",
        "skipped_local_data", "evicted", "force_deleted", "evict_failed",
        "evict_and_delete_failed"] := by
  decide

/-- C7: with a nonempty node name, a cordon failure makes the whole call
return the cordon error, independent of what listing or per-pod
processing would have returned (nothing is listed or processed); a
listing failure makes the whole call return the listing error; and when
cordon and listing succeed the call returns the report for every
possible per-pod outcome environment, so no per-pod failure is ever
propagated as a call-level error. -/
theorem drain_failure_semantics (a : DrainArgs) (env env2 : DrainEnv)
    (listResult listResult2 : Except String (List Pod)) (ce : String) (pods : List Pod)
    (hname : a.nodeName ≠ "") :
    (K8sDrain a (some ce) listResult env
        = .error ("Error cordoning node " ++ a.nodeName ++ ": " ++ ce)
      ∧ K8sDrain a (some ce) listResult env = K8sDrain a (some ce) listResult2 env2)
    ∧ (∀ le : String, K8sDrain a none (.error le) env
        = .error ("Error listing pods on node " ++ a.nodeName ++ ": " ++ le))
    ∧ K8sDrain a none (.ok pods) env
        = .ok (drainSummaryJson a (drainResults a env pods)) := by
  unfold K8sDrain K8sCordon
  simp [hname]

theorem drain_failure_semantics_witness :
    K8sDrain defaultArgs none (Except.ok [mirrorPod]) noopEnv
      = .ok (drainSummaryJson defaultArgs (drainResults defaultArgs noopEnv [mirrorPod])) :=
  (drain_failure_semantics defaultArgs noopEnv noopEnv (Except.ok []) (Except.ok [])
    "denied" [mirrorPod] (by decide)).2.2

/-- C8: the summary record of a completed drain has exactly the top-level
fields node, status, ignore_daemonsets, delete_local_data, force,
grace_period, timeout_seconds, retry_backoff_ms, max_backoff_ms and
results, and every results entry has fields namespace, name, action plus
an error field exactly when the error detail is nonempty. -/
theorem report_field_names (a : DrainArgs) (results : List PodResult) :
    objKeys (drainSummaryJson a results)
      = ["node", "status", "ignore_daemonsets", "delete_local_data", "force",
         "grace_period", "timeout_seconds", "retry_backoff_ms", "max_backoff_ms",
         "results"]
    ∧ ∀ r ∈ results,
        objKeys (podResultJson r)
          = if r.error == "" then ["namespace", "name", "action"]
            else ["namespace", "name", "action", "error"] := by
  constructor
  · rfl
  · intro r _
    cases he : (r.error == "") <;> simp [podResultJson, objKeys, he]

theorem report_field_names_witness :
    objKeys (drainSummaryJson defaultArgs
        [{ ns := "default", name := "web-1", action := "evicted", error := "" }])
      = ["node", "status", "ignore_daemonsets", "delete_local_data", "force",
         "grace_period", "timeout_seconds", "retry_backoff_ms", "max_backoff_ms",
         "results"]
    ∧ objKeys
        (podResultJson { ns := "default", name := "web-1", action := "evicted", error := "" })
      = ["namespace", "name", "action"] := by
  have h := report_field_names defaultArgs
    [{ ns := "default", name := "web-1", action := "evicted", error := "" }]
  exact ⟨h.1, by simpa using h.2 _ (by simp)⟩

/-- C9: with a nonempty node name, K8sCordon sends exactly the patch
whose only top-level field is spec, whose only field is
unschedulable=true, so nothing else of the node object is mutated. -/
theorem cordon_patch_minimal (nodeName : String) (h : nodeName ≠ "") :
    K8sCordon nodeName none = .ok cordonPatch
    ∧ objKeys cordonPatch = ["spec"]
    ∧ lookupField cordonPatch "spec"
        = some (Json.jobj [("unschedulable", Json.jbool true)])
    ∧ objKeys (Json.jobj [("unschedulable", Json.jbool true)]) = ["unschedulable"] := by
  refine ⟨?_, rfl, rfl, rfl⟩
  simp [K8sCordon, h]

theorem cordon_patch_minimal_witness :
    K8sCordon "n1" none = .ok cordonPatch
    ∧ objKeys cordonPatch = ["spec"]
    ∧ lookupField cordonPatch "spec"
        = some (Json.jobj [("unschedulable", Json.jbool true)])
    ∧ objKeys (Json.jobj [("unschedulable", Json.jbool true)]) = ["unschedulable"] :=
  cordon_patch_minimal "n1" (by decide)

/-- C5: a not-found response to an eviction request makes the retry
engine return success at once (one request, no sleep, ok result), and a
pod whose eviction succeeded gets the outcome evicted with no error
detail. -/
theorem evict_notFound_success (resp : Nat → EvictResponse) (deadline maxB fuel t n b : Nat)
    (a : DrainArgs) (env : DrainEnv) (pod : Pod) :
    (t < deadline → resp n = .notFound →
       evictLoop resp deadline maxB (fuel + 1) t n b = some (.ok, [.attempt t]))
    ∧ (env.evictErr pod = none →
       evictPhase a env pod
         = { ns := pod.ns, name := pod.name, action := "evicted", error := "" }) := by
  constructor
  · intro ht hr
    unfold evictLoop
    rw [if_neg (Nat.not_le.mpr ht), hr]
  · intro he
    unfold evictPhase
    rw [he]

theorem evict_notFound_success_witness :
    evictLoop (fun _ => EvictResponse.notFound) 1000 10000 1 0 0 1000
      = some (.ok, [.attempt 0])
    ∧ evictPhase defaultArgs noopEnv ordinaryPod
      = { ns := "default", name := "web-1", action := "evicted", error := "" } := by
  have h := evict_notFound_success (fun _ => EvictResponse.notFound) 1000 10000 0 0 0 1000
    defaultArgs noopEnv ordinaryPod
  exact ⟨h.1 (by decide) rfl, h.2 rfl⟩

/-- C6: in every iteration of the retry loop the deadline is checked
before the eviction request is submitted: a loop entered with the
deadline already reached returns the context error immediately with an
empty trace (no request issued), and in any completed run every request
in the trace was issued strictly before the deadline. -/
theorem evict_deadline_precheck (resp : Nat → EvictResponse) (deadline maxB : Nat) :
    ∀ fuel t n b,
      (deadline ≤ t → 0 < fuel →
        evictLoop resp deadline maxB fuel t n b = some (.ctxErr, []))
      ∧ (∀ res tr, evictLoop resp deadline maxB fuel t n b = some (res, tr) →
          ∀ ta, TraceEvent.attempt ta ∈ tr → ta < deadline) := by
  intro fuel
  induction fuel with
  | zero =>
    intro t n b
    refine ⟨fun _ h => absurd h (by simp), fun res tr h => ?_⟩
    exact absurd h (by simp [evictLoop])
  | succ f ih =>
    intro t n b
    constructor
    · intro hd _
      unfold evictLoop
      rw [if_pos hd]
    · intro res tr h ta hta
      unfold evictLoop at h
      by_cases hd : deadline ≤ t
      · rw [if_pos hd] at h
        obtain ⟨-, rfl⟩ := Prod.mk.injEq .. ▸ Option.some.inj h
        cases hta
      · rw [if_neg hd] at h
        have htlt : t < deadline := Nat.not_le.mp hd
        split at h
        · obtain ⟨-, rfl⟩ := Prod.mk.injEq .. ▸ Option.some.inj h
          simp only [List.mem_singleton] at hta
          obtain rfl := (TraceEvent.attempt.injEq .. ▸ hta)
          exact htlt
        · obtain ⟨-, rfl⟩ := Prod.mk.injEq .. ▸ Option.some.inj h
          simp only [List.mem_singleton] at hta
          obtain rfl := (TraceEvent.attempt.injEq .. ▸ hta)
          exact htlt
        · obtain ⟨-, rfl⟩ := Prod.mk.injEq .. ▸ Option.some.inj h
          simp only [List.mem_singleton] at hta
          obtain rfl := (TraceEvent.attempt.injEq .. ▸ hta)
          exact htlt
        · split at h
          · obtain ⟨-, rfl⟩ := Prod.mk.injEq .. ▸ Option.some.inj h
            simp only [List.mem_cons, List.not_mem_nil, or_false] at hta
            rcases hta with hta | hta
            · obtain rfl := (TraceEvent.attempt.injEq .. ▸ hta)
              exact htlt
            · exact absurd hta (by simp)
          · split at h
            · exact absurd h (by simp)
            · rename_i res' tr' heq
              obtain ⟨-, rfl⟩ := Prod.mk.injEq .. ▸ Option.some.inj h
              simp only [List.mem_cons] at hta
              rcases hta with hta | hta | hta
              · obtain rfl := (TraceEvent.attempt.injEq .. ▸ hta)
                exact htlt
              · exact absurd hta (by simp)
              · exact (ih (t + b) (n + 1) (capBackoff maxB (b * 2))).2 res' tr' heq ta hta

theorem evict_deadline_precheck_witness :
    evictLoop respTMR 5 10 3 7 0 1 = some (.ctxErr, []) :=
  ((evict_deadline_precheck respTMR 5 10) 3 7 0 1).1 (by decide) (by decide)

theorem capBackoff_pos (maxB b : Nat) (hm : 0 < maxB) (hb : 0 < b) :
    0 < capBackoff maxB b := by
  unfold capBackoff
  split
  · exact hm
  · exact hb

theorem capBackoff_le (maxB b : Nat) (hb : b ≤ maxB) : capBackoff maxB b ≤ maxB := by
  unfold capBackoff
  split
  · exact Nat.le_refl maxB
  · exact hb

theorem capBackoff_le_max (maxB b : Nat) : capBackoff maxB b ≤ maxB ∨ capBackoff maxB b = b := by
  unfold capBackoff
  split
  · exact Or.inl (Nat.le_refl maxB)
  · exact Or.inr rfl

/-- Every sleep duration recorded by a run of the retry loop starting
from a positive backoff, under a positive cap, is positive. -/
theorem evictLoop_sleep_pos (resp : Nat → EvictResponse) (deadline maxB : Nat)
    (hm : 0 < maxB) :
    ∀ fuel t n b, 0 < b →
      ∀ dur ∈ runSleeps (evictLoop resp deadline maxB fuel t n b), 0 < dur := by
  intro fuel
  induction fuel with
  | zero =>
    intro t n b _ dur hmem
    exact absurd hmem (by simp [evictLoop, runSleeps])
  | succ f ih =>
    intro t n b hb dur hmem
    unfold evictLoop at hmem
    by_cases hd : deadline ≤ t
    · rw [if_pos hd] at hmem
      exact absurd hmem (by simp [runSleeps, sleepDurations])
    · rw [if_neg hd] at hmem
      split at hmem
      · exact absurd hmem (by simp [runSleeps, sleepDurations])
      · exact absurd hmem (by simp [runSleeps, sleepDurations])
      · exact absurd hmem (by simp [runSleeps, sleepDurations])
      · split at hmem
        · simp only [runSleeps, sleepDurations, List.mem_singleton] at hmem
          exact hmem ▸ hb
        · split at hmem
          · exact absurd hmem (by simp [runSleeps])
          · rename_i res' tr' heq
            simp only [runSleeps, sleepDurations, List.mem_cons] at hmem
            rcases hmem with rfl | hmem
            · exact hb
            · have hb2 : 0 < capBackoff maxB (b * 2) :=
                capBackoff_pos maxB (b * 2) hm (by omega)
              have := ih (t + b) (n + 1) (capBackoff maxB (b * 2)) hb2 dur
              rw [heq] at this
              exact this (by simpa [runSleeps] using hmem)

/-- C10: evictWithRetry replaces a non-positive initial backoff by
1000 ms (one second) and a non-positive maximum backoff by 10000 ms (ten
seconds) before the loop starts, keeps positive supplied values
unchanged, and consequently every backoff sleep of any run has a
strictly positive duration. -/
theorem evict_backoff_clamp_positive (b m : Int) (resp : Nat → EvictResponse)
    (deadline fuel : Nat) :
    ((b ≤ 0 → effInitial b = 1000) ∧ (0 < b → effInitial b = b))
    ∧ ((m ≤ 0 → effMax m = 10000) ∧ (0 < m → effMax m = m))
    ∧ ∀ dur ∈ runSleeps (evictWithRetry resp deadline b m fuel), 0 < dur := by
  refine ⟨⟨fun hb => ?_, fun hb => ?_⟩, ⟨fun hm => ?_, fun hm => ?_⟩, ?_⟩
  · simp [effInitial, hb]
  · simp [effInitial, Int.not_le.mpr hb]
  · simp [effMax, hm]
  · simp [effMax, Int.not_le.mpr hm]
  · have hbpos : 0 < (effInitial b).toNat := by
      unfold effInitial
      split <;> omega
    have hmpos : 0 < (effMax m).toNat := by
      unfold effMax
      split <;> omega
    exact evictLoop_sleep_pos resp deadline (effMax m).toNat hmpos fuel 0 0
      (effInitial b).toNat hbpos

theorem evict_backoff_clamp_positive_witness :
    effInitial (-5) = 1000 ∧ effMax 0 = 10000 ∧ effInitial 700 = 700
    ∧ effMax 9000 = 9000 ∧ (0 : Nat) < 1000 := by
  have h := evict_backoff_clamp_positive (-5) 0 respTMR 10 1
  have h2 := evict_backoff_clamp_positive 700 9000 respTMR 10 1
  exact ⟨h.1.1 (by decide), h.2.1.1 (by decide), h2.1.2 (by decide),
    h2.2.1.2 (by decide), h.2.2 1000 (by decide)⟩

theorem sleepSeq_shift (maxB b0 : Nat) :
    ∀ i, sleepSeq maxB b0 (i + 1) = sleepSeq maxB (capBackoff maxB (b0 * 2)) i := by
  intro i
  induction i with
  | zero => rfl
  | succ j ih =>
    show capBackoff maxB (sleepSeq maxB b0 (j + 1) * 2) = _
    rw [ih]
    rfl

/-- The sleep durations of any run of the retry loop starting from
backoff b follow the ideal doubled-and-capped sequence from b. -/
theorem evictLoop_sleeps_eq (resp : Nat → EvictResponse) (deadline maxB : Nat) :
    ∀ fuel t n b res tr, evictLoop resp deadline maxB fuel t n b = some (res, tr) →
      ∀ i, i < (sleepDurations tr).length →
        (sleepDurations tr).getD i 0 = sleepSeq maxB b i := by
  intro fuel
  induction fuel with
  | zero =>
    intro t n b res tr h
    exact absurd h (by simp [evictLoop])
  | succ f ih =>
    intro t n b res tr h i hi
    unfold evictLoop at h
    by_cases hd : deadline ≤ t
    · rw [if_pos hd] at h
      obtain ⟨-, rfl⟩ := Prod.mk.injEq .. ▸ Option.some.inj h
      exact absurd hi (by simp [sleepDurations])
    · rw [if_neg hd] at h
      split at h
      · obtain ⟨-, rfl⟩ := Prod.mk.injEq .. ▸ Option.some.inj h
        exact absurd hi (by simp [sleepDurations])
      · obtain ⟨-, rfl⟩ := Prod.mk.injEq .. ▸ Option.some.inj h
        exact absurd hi (by simp [sleepDurations])
      · obtain ⟨-, rfl⟩ := Prod.mk.injEq .. ▸ Option.some.inj h
        exact absurd hi (by simp [sleepDurations])
      · split at h
        · obtain ⟨-, rfl⟩ := Prod.mk.injEq .. ▸ Option.some.inj h
          simp only [sleepDurations, List.length_singleton] at hi
          interval_cases i
          rfl
        · split at h
          · exact absurd h (by simp)
          · rename_i res' tr' heq
            obtain ⟨-, rfl⟩ := Prod.mk.injEq .. ▸ Option.some.inj h
            simp only [sleepDurations] at hi ⊢
            cases i with
            | zero => rfl
            | succ j =>
              rw [List.getD_cons_succ, sleepSeq_shift]
              exact ih (t + b) (n + 1) (capBackoff maxB (b * 2)) res' tr' heq j
                (by simpa using hi)

theorem sleepSeq_le_max (maxB b0 : Nat) (hbm : b0 ≤ maxB) :
    ∀ i, sleepSeq maxB b0 i ≤ maxB := by
  intro i
  cases i with
  | zero => exact hbm
  | succ j =>
    show capBackoff maxB (sleepSeq maxB b0 j * 2) ≤ maxB
    unfold capBackoff
    split
    · exact Nat.le_refl maxB
    · omega

theorem sleepSeq_mono (maxB b0 : Nat) (hbm : b0 ≤ maxB) :
    ∀ i, sleepSeq maxB b0 i ≤ sleepSeq maxB b0 (i + 1) := by
  intro i
  show sleepSeq maxB b0 i ≤ capBackoff maxB (sleepSeq maxB b0 i * 2)
  have hle := sleepSeq_le_max maxB b0 hbm i
  unfold capBackoff
  split
  · exact hle
  · omega

theorem sleepSeq_default_tail : ∀ i, sleepSeq 10000 1000 (i + 4) = 10000 := by
  intro i
  induction i with
  | zero => rfl
  | succ j ih =>
    show capBackoff 10000 (sleepSeq 10000 1000 (j + 4) * 2) = 10000
    rw [ih]
    rfl

/-- C4 (amended): when the initial backoff does not exceed the maximum
backoff (both positive), the sleep durations of every run of the retry
loop follow the ideal sequence starting at the initial backoff, that
sequence is monotonically non-decreasing, each next sleep is the double
of the previous capped at the maximum, no sleep exceeds the maximum, and
with initial 1000 ms and maximum 10000 ms the sequence is 1000, 2000,
4000, 8000, 10000, 10000, and so on.  Without the added hypothesis the
first sleep is the uncapped initial backoff (see the counterexample). -/
theorem backoff_monotone_capped (resp : Nat → EvictResponse)
    (deadline maxB fuel t n b0 : Nat) (hb : 0 < b0) (hbm : b0 ≤ maxB) :
    (∀ res tr, evictLoop resp deadline maxB fuel t n b0 = some (res, tr) →
       ∀ i, i < (sleepDurations tr).length →
         (sleepDurations tr).getD i 0 = sleepSeq maxB b0 i)
    ∧ (∀ i, sleepSeq maxB b0 i ≤ sleepSeq maxB b0 (i + 1))
    ∧ (∀ i, sleepSeq maxB b0 (i + 1) = capBackoff maxB (sleepSeq maxB b0 i * 2))
    ∧ (∀ i, sleepSeq maxB b0 i ≤ maxB)
    ∧ ([sleepSeq 10000 1000 0, sleepSeq 10000 1000 1, sleepSeq 10000 1000 2,
        sleepSeq 10000 1000 3, sleepSeq 10000 1000 4]
          = [1000, 2000, 4000, 8000, 10000]
       ∧ ∀ i, sleepSeq 10000 1000 (i + 4) = 10000) := by
  refine ⟨?_, sleepSeq_mono maxB b0 hbm, fun i => rfl, sleepSeq_le_max maxB b0 hbm,
    by decide, sleepSeq_default_tail⟩
  intro res tr h i hi
  exact evictLoop_sleeps_eq resp deadline maxB fuel t n b0 res tr h i hi

theorem backoff_monotone_capped_witness :
    sleepSeq 10000 1000 0 ≤ sleepSeq 10000 1000 1
    ∧ sleepSeq 10000 1000 5 ≤ 10000
    ∧ sleepSeq 10000 1000 6 = 10000 := by
  have h := backoff_monotone_capped respTMR 0 10000 1 0 0 1000 (by decide) (by decide)
  exact ⟨h.2.1 0, h.2.2.2.1 5, h.2.2.2.2.2 2⟩

/-- C4 (counterexample): with positive initial backoff 20000 ms and
positive maximum 10000 ms, a run sleeping twice records the sleeps
20000, 10000: the first sleep exceeds the maximum and the sequence
decreases, refuting the claim as stated for every positive pair. -/
theorem backoff_spec_counterexample :
    runSleeps (evictWithRetry resp429twice 100000 20000 10000 3) = [20000, 10000]
    ∧ ¬ (20000 ≤ 10000) := by
  decide

theorem evictPhase_key (a : DrainArgs) (env : DrainEnv) (q : Pod) :
    (evictPhase a env q).ns = q.ns ∧ (evictPhase a env q).name = q.name := by
  unfold evictPhase
  split
  · exact ⟨rfl, rfl⟩
  · split
    · split
      · exact ⟨rfl, rfl⟩
      · exact ⟨rfl, rfl⟩
    · exact ⟨rfl, rfl⟩

theorem processPod_key (a : DrainArgs) (env : DrainEnv) (q : Pod) (r : PodResult)
    (h : processPod a env q = some r) : r.ns = q.ns ∧ r.name = q.name := by
  unfold processPod at h
  split at h
  · exact absurd h (by simp)
  · split at h
    · obtain rfl := (Option.some.inj h).symm
      exact ⟨rfl, rfl⟩
    · split at h
      · obtain rfl := (Option.some.inj h).symm
        exact ⟨rfl, rfl⟩
      · split at h
        · obtain rfl := (Option.some.inj h).symm
          exact ⟨rfl, rfl⟩
        · obtain rfl := (Option.some.inj h).symm
          exact evictPhase_key a env q

theorem processPod_isSome (a : DrainArgs) (env : DrainEnv) (q : Pod) :
    (processPod a env q).isSome = !isCompletedPod q := by
  unfold processPod
  split
  · rename_i hc
    simp [hc]
  · rename_i hc
    rw [Bool.not_eq_true] at hc
    rw [hc]
    split
    · rfl
    · split
      · rfl
      · split
        · rfl
        · rfl

/-- The (namespace, name) keys of the drain results are exactly the keys
of the listed pods that are not in a terminal phase, in listing order:
the report depends only on the list-time snapshot. -/
theorem drainResults_keys (a : DrainArgs) (env : DrainEnv) :
    ∀ pods : List Pod,
      (drainResults a env pods).map (fun r => (r.ns, r.name))
        = (pods.filter (fun q => !isCompletedPod q)).map (fun q => (q.ns, q.name)) := by
  intro pods
  induction pods with
  | nil => rfl
  | cons q rest ih =>
    unfold drainResults at ih ⊢
    rw [List.filterMap_cons, List.filter_cons]
    cases hq : processPod a env q with
    | none =>
      have hc : (!isCompletedPod q) = false := by
        have hs := processPod_isSome a env q
        rw [hq] at hs
        exact hs.symm
      rw [hc]
      simpa using ih
    | some r =>
      have hc : (!isCompletedPod q) = true := by
        have hs := processPod_isSome a env q
        rw [hq] at hs
        exact hs.symm
      have hkey := processPod_key a env q r hq
      rw [hc]
      simp [hkey.1, hkey.2, ih]

/-- Number of occurrences of a (namespace, name) key in a list of keys. -/
def keyCount (key : String × String) (l : List (String × String)) : Nat :=
  (l.filter (fun k => k == key)).length

theorem keyCount_cons (key k : String × String) (l : List (String × String)) :
    keyCount key (k :: l) = (if k == key then 1 else 0) + keyCount key l := by
  unfold keyCount
  rw [List.filter_cons]
  split
  · simp [Nat.add_comm]
  · simp

theorem keyCount_eq_zero (key : String × String) (l : List (String × String))
    (h : key ∉ l) : keyCount key l = 0 := by
  induction l with
  | nil => rfl
  | cons k rest ih =>
    rw [keyCount_cons]
    have hk : (k == key) = false := by
      simp only [beq_eq_false_iff_ne, ne_eq]
      intro he
      exact h (he ▸ List.mem_cons_self k rest)
    rw [hk]
    simpa using ih (fun hm => h (List.mem_cons_of_mem k hm))

/-- C3 (amended): provided the listed pods have pairwise distinct
(namespace, name) keys, a listed pod whose phase is not terminal appears
in the report exactly once, and a listed pod in a terminal phase
(Succeeded or Failed) appears zero times; the report is a function of
the list-time snapshot only, so later changes to the node pod set cannot
affect it. -/
theorem report_exactly_once (a : DrainArgs) (env : DrainEnv) (pods : List Pod) (p : Pod)
    (hmem : p ∈ pods)
    (hkeys : (pods.map (fun q => (q.ns, q.name))).Nodup) :
    keyCount (p.ns, p.name) ((drainResults a env pods).map (fun r => (r.ns, r.name)))
      = if isCompletedPod p then 0 else 1 := by
  rw [drainResults_keys]
  revert hmem hkeys
  induction pods with
  | nil =>
    intro hmem _
    cases hmem
  | cons q rest ih =>
    intro hmem hkeys
    rw [List.map_cons, List.nodup_cons] at hkeys
    obtain ⟨hqnot, hrest⟩ := hkeys
    rw [List.filter_cons]
    rcases List.mem_cons.mp hmem with rfl | hpm
    · have hnotin : (p.ns, p.name)
          ∉ (rest.filter (fun q => !isCompletedPod q)).map (fun q => (q.ns, q.name)) := by
        intro hmm
        obtain ⟨q', hq'f, hq'k⟩ := List.mem_map.mp hmm
        exact hqnot (hq'k ▸ List.mem_map_of_mem _ (List.mem_of_mem_filter hq'f))
      cases hcq : isCompletedPod p with
      | true =>
        simp only [hcq, Bool.not_true]
        rw [if_neg (by simp)]
        simp [keyCount_eq_zero _ _ hnotin]
      | false =>
        simp only [hcq, Bool.not_false]
        rw [if_pos trivial, List.map_cons, keyCount_cons]
        rw [if_pos (by simp)]
        simp [keyCount_eq_zero _ _ hnotin]
    · have hrec := ih hpm hrest
      cases hcq : isCompletedPod q with
      | true =>
        simp only [hcq, Bool.not_true]
        rw [if_neg (by simp)]
        exact hrec
      | false =>
        simp only [hcq, Bool.not_false]
        rw [if_pos trivial, List.map_cons, keyCount_cons]
        have hne : ((q.ns, q.name) == (p.ns, p.name)) = false := by
          simp only [beq_eq_false_iff_ne, ne_eq]
          intro he
          exact hqnot (he ▸ List.mem_map_of_mem _ hpm)
        rw [hne]
        simpa using hrec

theorem report_exactly_once_witness :
    keyCount (ordinaryPod.ns, ordinaryPod.name)
        ((drainResults defaultArgs noopEnv [succeededPod, ordinaryPod]).map
          (fun r => (r.ns, r.name)))
      = if isCompletedPod ordinaryPod then 0 else 1 :=
  report_exactly_once defaultArgs noopEnv [succeededPod, ordinaryPod] ordinaryPod
    (by decide) (by decide)

/-- C3 (counterexample): a pod in phase Succeeded enumerated at list time
gets no outcome entry at all, so it appears zero times in the report, not
exactly once. -/
theorem report_exactly_once_counterexample :
    succeededPod ∈ [succeededPod]
    ∧ ([succeededPod].map (fun q => (q.ns, q.name))).Nodup
    ∧ keyCount (succeededPod.ns, succeededPod.name)
        ((drainResults defaultArgs noopEnv [succeededPod]).map
          (fun r => (r.ns, r.name))) = 0 := by
  refine ⟨by decide, by decide, by decide⟩

end K8s
